import Mathlib

/-!
Verification development for the torimAL appointment-booking backend.

The scheduling core lives in `src/routes/appointments.js` (booking
transaction, admin status change, client cancel, by-day query),
`src/unnamed/part_002` (blocks by-day query), `src/models/blockModel.js`
and `src/unnamed/part_008` (appointment schema with the unique index over
business/worker/start restricted to status confirmed).

Instants are modelled as integer milliseconds since the epoch (UTC),
durations as natural-number minutes, ids as natural numbers (the route
level ObjectId validity checks hold by construction for typed ids).
The data store is a record of lists; each route handler becomes a pure
function from store to result and updated store.  The booking create takes
two store arguments, a `snap`shot that the membership and overlap checks
read and the `cur`rent store the insert writes to: sequential execution is
the special case `snap = cur`, while distinct arguments model a concurrent
writer committing between the check and the insert, which is what the
unique-index / duplicate-key branch of the route is for.
-/

namespace Torimal

/-- Appointment status enum of the appointment schema. -/
inductive Status where
  | confirmed
  | canceled
  | completed
  | no_show
deriving DecidableEq, Repr

/-- Embedded service snapshot (name, duration in minutes, price). -/
structure Service where
  name : String
  duration : Nat
  price : Nat
deriving DecidableEq, Repr

/-- An appointment document. -/
structure Appointment where
  id : Nat
  business : Nat
  client : Nat
  worker : Nat
  service : Service
  start : Int
  notes : String
  status : Status
  createdAt : Int
deriving DecidableEq, Repr

/-- Block reason enum of the block schema. -/
inductive BlockReason where
  | vacation
  | maintenance
  | training
  | other
deriving DecidableEq, Repr

/-- A block document: unavailable time for the whole business
(`resource = none`) or one worker (`resource = some w`). -/
structure Block where
  id : Nat
  business : Nat
  resource : Option Nat
  start : Int
  stop : Int
  timezone : String
  reason : BlockReason
  notes : String
  createdBy : Option Nat
  active : Bool
deriving DecidableEq, Repr

/-- A user document restricted to the fields the booking path reads. -/
structure User where
  id : Nat
  business : Nat
deriving DecidableEq, Repr

/-- The logical data store. `nextId` supplies fresh document ids. -/
structure Store where
  users : List User
  appointments : List Appointment
  blocks : List Block
  nextId : Nat
deriving DecidableEq, Repr

/-- `const minutesToMs = (min) => min * 60 * 1000`. -/
def minutesToMs (min : Nat) : Int := (min : Int) * 60000

/-- `const HOURS_24_MS = 24 * 60 * 60 * 1000`. -/
def HOURS_24_MS : Int := 24 * 60 * 60 * 1000

/-- `const BLOCKING_STATUSES = ['confirmed']`. -/
def BLOCKING_STATUSES : List Status := [Status.confirmed]

/-- Derived end instant of an appointment: start plus duration. -/
def apptEnd (a : Appointment) : Int := a.start + minutesToMs a.service.duration

/-- The Mongo filter of the overlap query in `POST /appointments`:
same business and worker, blocking status, and half-open interval overlap
with the requested `[startD, endD)`. -/
def overlapFilter (biz w : Nat) (startD endD : Int) (a : Appointment) : Bool :=
  a.business == biz && a.worker == w && BLOCKING_STATUSES.contains a.status
    && decide (a.start < endD) && decide (startD < apptEnd a)

/-- The unique partial index of the appointment schema:
`{business, worker, start}` unique among documents with
status in `['confirmed']`.  `dupKey` is the condition under which an
insert of a confirmed document raises the duplicate-key error 11000. -/
def dupKey (biz w : Nat) (startD : Int) (a : Appointment) : Bool :=
  a.business == biz && a.worker == w && decide (a.start = startD)
    && BLOCKING_STATUSES.contains a.status

/-- Booking request body merged with the token business,
as consumed by `POST /appointments` after Joi validation. -/
structure BookingReq where
  business : Nat
  client : Nat
  worker : Nat
  service : Service
  start : Int
  notes : Option String
deriving DecidableEq, Repr

/-- The Joi schema `validateAppointment`: service name 1..100 chars,
duration 1..480 minutes, price 0..10000, start strictly after now,
optional notes of at most 1000 chars. -/
def validateAppointment (now : Int) (r : BookingReq) : Bool :=
  decide (1 ≤ r.service.name.length) && decide (r.service.name.length ≤ 100)
    && decide (1 ≤ r.service.duration) && decide (r.service.duration ≤ 480)
    && decide (r.service.price ≤ 10000)
    && decide (now < r.start)
    && (match r.notes with
        | some n => decide (n.length ≤ 1000)
        | none => true)

/-- `UserModel.findOne({ _id: uid, business })` succeeds. -/
def userInBusiness (s : Store) (uid biz : Nat) : Bool :=
  s.users.any fun u => u.id == uid && u.business == biz

/-- Outcome of the booking transaction `POST /appointments`. -/
inductive CreateResult where
  | validationError
  | clientNotInBusiness
  | workerNotInBusiness
  | slotTaken
  | created (doc : Appointment)
deriving DecidableEq, Repr

/-- The document persisted by a successful booking: service snapshot
copied by value, status confirmed, `notes || ''`, creation timestamp. -/
def newDoc (cur : Store) (now : Int) (r : BookingReq) : Appointment :=
  { id := cur.nextId
    business := r.business
    client := r.client
    worker := r.worker
    service := r.service
    start := r.start
    notes := (match r.notes with | some n => n | none => "")
    status := Status.confirmed
    createdAt := now }

/-- The booking transaction `POST /appointments`.  Checks run against the
snapshot `snap`; the insert (and hence the unique-index arbiter) runs
against the current store `cur`.  Sequential execution is `snap = cur`. -/
def createAppointment (snap cur : Store) (now : Int) (r : BookingReq) :
    CreateResult × Store :=
  if validateAppointment now r then
    if userInBusiness snap r.client r.business then
      if userInBusiness snap r.worker r.business then
        if snap.appointments.any (overlapFilter r.business r.worker r.start
            (r.start + minutesToMs r.service.duration)) then
          (CreateResult.slotTaken, cur)
        else if cur.appointments.any (dupKey r.business r.worker r.start) then
          (CreateResult.slotTaken, cur)
        else
          (CreateResult.created (newDoc cur now r),
            { cur with appointments := newDoc cur now r :: cur.appointments
                       nextId := cur.nextId + 1 })
      else (CreateResult.workerNotInBusiness, cur)
    else (CreateResult.clientNotInBusiness, cur)
  else (CreateResult.validationError, cur)

/-- Sequential booking step: snapshot and current store coincide. -/
def applyCreate (s : Store) (now : Int) (r : BookingReq) : Store :=
  (createAppointment s s now r).2

/-- Body of `PATCH /appointments/:id/status` after Joi validation. -/
structure StatusPayload where
  status : Status
  notes : Option String
deriving DecidableEq, Repr

/-- The Mongo update document
`{ status, ...(value.notes ? { notes: value.notes } : {}) }`:
status always set, notes set only when the supplied value is truthy
(a non-empty string; `''` and `null`/absent are falsy in JS). -/
def applyStatus (p : StatusPayload) (a : Appointment) : Appointment :=
  { a with
      status := p.status
      notes := match p.notes with
               | some n => if n = "" then a.notes else n
               | none => a.notes }

/-- `findOneAndUpdate` semantics: rewrite the first list element matching
the filter with `f`, leave everything else untouched. -/
def setFirst (p : Appointment → Bool) (f : Appointment → Appointment) :
    List Appointment → List Appointment
  | [] => []
  | a :: rest => if p a then f a :: rest else a :: setFirst p f rest

/-- Outcome of the admin status change and the client cancel routes. -/
inductive UpdateResult where
  | notFound
  | slotTaken
  | onlyConfirmedCanBeCanceled
  | cannotCancelWithin24h
  | ok
deriving DecidableEq, Repr

/-- The conflict filter of `PATCH /appointments/:id/status` when the
target status is confirmed: some other record of the same business and
worker in a blocking status overlaps the appointment's own interval. -/
def statusConflictFilter (appt : Appointment) (b : Appointment) : Bool :=
  !(b.id == appt.id) && b.business == appt.business && b.worker == appt.worker
    && BLOCKING_STATUSES.contains b.status
    && decide (b.start < apptEnd appt) && decide (appt.start < apptEnd b)

/-- `PATCH /appointments/:id/status` (admin): look the appointment up by
id and token business; when the target status is confirmed, re-run the
overlap check excluding the appointment's own record and fail with
SLOT_TAKEN on a conflict; otherwise update status (and truthy notes). -/
def adminSetStatus (s : Store) (id biz : Nat) (p : StatusPayload) :
    UpdateResult × Store :=
  match s.appointments.find? (fun a => a.id == id && a.business == biz) with
  | none => (UpdateResult.notFound, s)
  | some appt =>
    if p.status == Status.confirmed
        && s.appointments.any (statusConflictFilter appt) then
      (UpdateResult.slotTaken, s)
    else
      (UpdateResult.ok,
        { s with appointments :=
            (setFirst (fun a => a.id == id && a.business == biz) (applyStatus p)
              s.appointments) })

/-- `PATCH /appointments/:id/cancel` (client): look the appointment up by
id, token client and token business; only a confirmed appointment may be
canceled, and only when `start - now ≥ 24h` (the code rejects exactly
when `diffMs < HOURS_24_MS`). -/
def clientCancel (s : Store) (id client biz : Nat) (now : Int) :
    UpdateResult × Store :=
  match s.appointments.find?
      (fun a => a.id == id && a.client == client && a.business == biz) with
  | none => (UpdateResult.notFound, s)
  | some appt =>
    if !(appt.status == Status.confirmed) then
      (UpdateResult.onlyConfirmedCanBeCanceled, s)
    else if decide (appt.start - now < HOURS_24_MS) then
      (UpdateResult.cannotCancelWithin24h, s)
    else
      (UpdateResult.ok,
        { s with appointments :=
            (setFirst (fun a => a.id == id && a.client == client && a.business == biz)
              (fun a => { a with status := Status.canceled })
              s.appointments) })

/-- `GET /appointments/by-day`: `dayStart` is local midnight of the
queried day and the filter is
`start: { $gte: dayStart, $lt: dayEnd }` with
`dayEnd = dayStart + 23:59:59.999` — a filter on the start instant
alone. -/
def apptsByDay (s : Store) (biz w : Nat) (dayStart : Int) : List Appointment :=
  s.appointments.filter fun a =>
    a.business == biz && a.worker == w
      && decide (dayStart ≤ a.start) && decide (a.start < dayStart + 86399999)

/-- `GET /blocks/by-day`: active blocks of the business whose interval
intersects `[dayStart, dayStart + 1 day)` — `start < dayEnd` and
`end > dayStart` — scoped to global blocks (`resource = null`) plus,
when a worker id is supplied, that worker's blocks. -/
def blocksByDay (s : Store) (biz : Nat) (w : Option Nat) (dayStart : Int) :
    List Block :=
  s.blocks.filter fun b =>
    b.business == biz && b.active
      && decide (b.start < dayStart + 86400000) && decide (dayStart < b.stop)
      && (match w with
          | some wid => b.resource == none || b.resource == some wid
          | none => b.resource == none)

/-- Half-open interval overlap between two appointments:
`s1 < e2 AND s2 < e1`. -/
def overlaps (a b : Appointment) : Prop :=
  a.start < apptEnd b ∧ b.start < apptEnd a

/-- Overlap is symmetric. -/
theorem overlaps_symm {a b : Appointment} (h : overlaps a b) : overlaps b a :=
  ⟨h.2, h.1⟩

/-- Pairwise relation maintained over the appointment list: distinct
document ids, and no two confirmed appointments of the same business and
worker overlap. -/
def Rel (a b : Appointment) : Prop :=
  a.id ≠ b.id ∧
    (a.business = b.business → a.worker = b.worker →
      a.status = Status.confirmed → b.status = Status.confirmed → ¬ overlaps a b)

/-- `Rel` is symmetric. -/
theorem rel_symm {a b : Appointment} (h : Rel a b) : Rel b a :=
  ⟨fun e => h.1 e.symm,
   fun hb hw hsb hsa hov => h.2 hb.symm hw.symm hsa hsb (overlaps_symm hov)⟩

/-- Store invariant: the pairwise relation holds, document ids are below
the id supply, and every stored service duration is at least a minute
(enforced by the Joi schema at creation). -/
def Inv (s : Store) : Prop :=
  s.appointments.Pairwise Rel ∧
    (∀ a ∈ s.appointments, a.id < s.nextId) ∧
    (∀ a ∈ s.appointments, 1 ≤ a.service.duration)

/-- States reachable from an empty appointment collection by the three
appointment write paths; users and blocks may change arbitrarily between
steps (their routes are independent of the appointment collection). -/
inductive Reachable : Store → Prop where
  | init (users : List User) (blocks : List Block) :
      Reachable { users := users, appointments := [], blocks := blocks, nextId := 0 }
  | create {s : Store} (now : Int) (r : BookingReq) :
      Reachable s → Reachable (applyCreate s now r)
  | status {s : Store} (id biz : Nat) (p : StatusPayload) :
      Reachable s → Reachable (adminSetStatus s id biz p).2
  | cancel {s : Store} (id client biz : Nat) (now : Int) :
      Reachable s → Reachable (clientCancel s id client biz now).2
  | env {s : Store} (users : List User) (blocks : List Block) :
      Reachable s → Reachable { s with users := users, blocks := blocks }

/-- Membership after `setFirst`: either an untouched old element, or the
image of an old element matched by the filter. -/
theorem setFirst_mem {p : Appointment → Bool} {f : Appointment → Appointment}
    {l : List Appointment} {x : Appointment} (hx : x ∈ setFirst p f l) :
    x ∈ l ∨ ∃ a ∈ l, p a = true ∧ x = f a := by
  induction l with
  | nil => simp [setFirst] at hx
  | cons a rest ih =>
    by_cases hpa : p a = true
    · rw [setFirst, if_pos hpa] at hx
      rcases List.mem_cons.1 hx with h | h
      · exact Or.inr ⟨a, List.mem_cons_self a rest, hpa, h⟩
      · exact Or.inl (List.mem_cons_of_mem a h)
    · rw [setFirst, if_neg hpa] at hx
      rcases List.mem_cons.1 hx with h | h
      · exact Or.inl (h ▸ List.mem_cons_self a rest)
      · rcases ih h with h' | ⟨b, hb, hpb, hxb⟩
        · exact Or.inl (List.mem_cons_of_mem a h')
        · exact Or.inr ⟨b, List.mem_cons_of_mem a hb, hpb, hxb⟩

/-- `setFirst` preserves a pairwise relation as long as rewriting a
matched element re-establishes its relation to every other element. -/
theorem pairwise_setFirst {R : Appointment → Appointment → Prop}
    {p : Appointment → Bool} {f : Appointment → Appointment}
    {l : List Appointment} (hl : l.Pairwise R)
    (h1 : ∀ a ∈ l, p a = true → ∀ b ∈ l, R a b → R (f a) b)
    (h2 : ∀ a ∈ l, p a = true → ∀ b ∈ l, R b a → R b (f a)) :
    (setFirst p f l).Pairwise R := by
  induction l with
  | nil => exact List.Pairwise.nil
  | cons a rest ih =>
    rcases List.pairwise_cons.1 hl with ⟨ha, hrest⟩
    by_cases hpa : p a = true
    · rw [setFirst, if_pos hpa]
      refine List.pairwise_cons.2 ⟨fun b hb => ?_, hrest⟩
      exact h1 a (List.mem_cons_self a rest) hpa b (List.mem_cons_of_mem a hb) (ha b hb)
    · rw [setFirst, if_neg hpa]
      refine List.pairwise_cons.2 ⟨fun b hb => ?_, ?_⟩
      · rcases setFirst_mem hb with h | ⟨c, hc, hpc, hbc⟩
        · exact ha b h
        · exact hbc ▸ h2 c (List.mem_cons_of_mem a hc) hpc a (List.mem_cons_self a rest) (ha c hc)
      · exact ih hrest
          (fun x hx hpx b hb => h1 x (List.mem_cons_of_mem a hx) hpx b (List.mem_cons_of_mem a hb))
          (fun x hx hpx b hb => h2 x (List.mem_cons_of_mem a hx) hpx b (List.mem_cons_of_mem a hb))

/-- With pairwise-distinct ids, the id determines the list element. -/
theorem id_inj {l : List Appointment}
    (h : l.Pairwise fun a b => a.id ≠ b.id) :
    ∀ a ∈ l, ∀ b ∈ l, a.id = b.id → a = b := by
  induction l with
  | nil => intro a ha; simp at ha
  | cons c rest ih =>
    rcases List.pairwise_cons.1 h with ⟨hc, hrest⟩
    intro a ha b hb he
    rcases List.mem_cons.1 ha with ha' | ha'
    · rcases List.mem_cons.1 hb with hb' | hb'
      · exact ha'.trans hb'.symm
      · exact absurd (ha' ▸ he) (hc b hb')
    · rcases List.mem_cons.1 hb with hb' | hb'
      · exact absurd (hb' ▸ he).symm (hc a ha')
      · exact ih hrest a ha' b hb' he

/-- Unfolding of the overlap filter to a proposition. -/
theorem overlapFilter_eq_true {biz w : Nat} {startD endD : Int} {a : Appointment} :
    overlapFilter biz w startD endD a = true ↔
      a.business = biz ∧ a.worker = w ∧ a.status = Status.confirmed ∧
        a.start < endD ∧ startD < apptEnd a := by
  simp [overlapFilter, BLOCKING_STATUSES, and_assoc]

/-- Unfolding of the duplicate-key condition to a proposition. -/
theorem dupKey_eq_true {biz w : Nat} {startD : Int} {a : Appointment} :
    dupKey biz w startD a = true ↔
      a.business = biz ∧ a.worker = w ∧ a.start = startD ∧
        a.status = Status.confirmed := by
  simp [dupKey, BLOCKING_STATUSES, and_assoc]

/-- Unfolding of the re-confirmation conflict filter to a proposition. -/
theorem statusConflictFilter_eq_true {appt b : Appointment} :
    statusConflictFilter appt b = true ↔
      b.id ≠ appt.id ∧ b.business = appt.business ∧ b.worker = appt.worker ∧
        b.status = Status.confirmed ∧
        b.start < apptEnd appt ∧ appt.start < apptEnd b := by
  simp [statusConflictFilter, BLOCKING_STATUSES, and_assoc]

/-- A validated request has a service duration of at least one minute. -/
theorem validate_one_le_duration {now : Int} {r : BookingReq}
    (h : validateAppointment now r = true) : 1 ≤ r.service.duration := by
  simp only [validateAppointment, Bool.and_eq_true, decide_eq_true_eq] at h
  exact h.1.1.1.1.2

/-- A duration of at least a minute makes the derived end instant
strictly later than the start. -/
theorem apptEnd_gt_start {a : Appointment} (h : 1 ≤ a.service.duration) :
    a.start < apptEnd a := by
  have : (1 : Int) ≤ (a.service.duration : Int) := by exact_mod_cast h
  simp only [apptEnd, minutesToMs]
  nlinarith

/-- After the three gate checks pass, the booking transaction is decided
by the overlap check on the snapshot and the unique index on the current
store. -/
theorem createAppointment_gates {snap cur : Store} {now : Int} {r : BookingReq}
    (hv : validateAppointment now r = true)
    (hc : userInBusiness snap r.client r.business = true)
    (hw : userInBusiness snap r.worker r.business = true) :
    createAppointment snap cur now r =
      if snap.appointments.any (overlapFilter r.business r.worker r.start
          (r.start + minutesToMs r.service.duration)) then
        (CreateResult.slotTaken, cur)
      else if cur.appointments.any (dupKey r.business r.worker r.start) then
        (CreateResult.slotTaken, cur)
      else
        (CreateResult.created (newDoc cur now r),
          { cur with appointments := newDoc cur now r :: cur.appointments
                     nextId := cur.nextId + 1 }) := by
  simp [createAppointment, hv, hc, hw]

/-- A sequential booking step either leaves the store unchanged or, when
the request is valid and the overlap check found no conflict, prepends the
new confirmed document. -/
theorem applyCreate_cases (s : Store) (now : Int) (r : BookingReq) :
    applyCreate s now r = s ∨
      (validateAppointment now r = true ∧
        s.appointments.any (overlapFilter r.business r.worker r.start
          (r.start + minutesToMs r.service.duration)) = false ∧
        applyCreate s now r =
          { s with appointments := newDoc s now r :: s.appointments
                   nextId := s.nextId + 1 }) := by
  unfold applyCreate createAppointment
  split
  next hv =>
    split
    next hc =>
      split
      next hw =>
        split
        next hov => exact Or.inl rfl
        next hov =>
          split
          next hdup => exact Or.inl rfl
          next hdup => exact Or.inr ⟨hv, Bool.eq_false_iff.mpr hov, rfl⟩
      next hw => exact Or.inl rfl
    next hc => exact Or.inl rfl
  next hv => exact Or.inl rfl

/-- The sequential booking step preserves the store invariant. -/
theorem inv_applyCreate {s : Store} (now : Int) (r : BookingReq) (hs : Inv s) :
    Inv (applyCreate s now r) := by
  rcases applyCreate_cases s now r with h | ⟨hv, hov, h⟩
  · rw [h]; exact hs
  · rw [h]
    obtain ⟨hpw, hid, hdur⟩ := hs
    refine ⟨List.pairwise_cons.2 ⟨?_, hpw⟩, ?_, ?_⟩
    · intro b hb
      refine ⟨?_, ?_⟩
      · have := hid b hb
        simp only [newDoc]
        omega
      · intro hbiz hwk _ hsb hovl
        have hf := (List.any_eq_false.mp hov) b hb
        apply hf
        rw [overlapFilter_eq_true]
        simp only [newDoc] at hbiz hwk
        rcases hovl with ⟨ho1, ho2⟩
        simp only [apptEnd, newDoc, minutesToMs] at ho1 ho2
        exact ⟨hbiz.symm, hwk.symm, hsb, by simpa [apptEnd, minutesToMs] using ho2,
          by simpa [apptEnd, minutesToMs] using ho1⟩
    · intro a ha
      show a.id < s.nextId + 1
      rcases List.mem_cons.1 ha with rfl | ha
      · simp only [newDoc]; omega
      · have := hid a ha; omega
    · intro a ha
      rcases List.mem_cons.1 ha with rfl | ha
      · simpa only [newDoc] using validate_one_le_duration hv
      · exact hdur a ha

/-- The admin status change preserves the store invariant. -/
theorem inv_adminSetStatus {s : Store} (id biz : Nat) (p : StatusPayload)
    (hs : Inv s) : Inv (adminSetStatus s id biz p).2 := by
  unfold adminSetStatus
  split
  next => exact hs
  next appt hfind =>
    split
    next hconf => exact hs
    next hconf =>
      obtain ⟨hpw, hid, hdur⟩ := hs
      have hmem : appt ∈ s.appointments := List.mem_of_find?_eq_some hfind
      have hpappt := List.find?_some hfind
      have hids : s.appointments.Pairwise fun a b => a.id ≠ b.id :=
        hpw.imp fun h => h.1
      have hmatch : ∀ a ∈ s.appointments,
          (a.id == id && a.business == biz) = true → a = appt := by
        intro a ha hpa
        apply id_inj hids a ha appt hmem
        simp only [Bool.and_eq_true, beq_iff_eq] at hpa hpappt
        rw [hpa.1, hpappt.1]
      have hnoc : p.status = Status.confirmed →
          ∀ b ∈ s.appointments, ¬ statusConflictFilter appt b = true := by
        intro hp b hb hfb
        exact hconf (by
          rw [Bool.and_eq_true]
          exact ⟨by simp [hp], List.any_eq_true.mpr ⟨b, hb, hfb⟩⟩)
      refine ⟨pairwise_setFirst hpw ?_ ?_, ?_, ?_⟩
      · intro a ha hpa b hb hab
        rw [hmatch a ha hpa]
        rw [hmatch a ha hpa] at hab
        refine ⟨by simpa [applyStatus] using hab.1, ?_⟩
        intro hbiz hwk hsa hsb hovl
        simp only [applyStatus] at hbiz hwk hsa
        have hovl' : appt.start < apptEnd b ∧ b.start < apptEnd appt := by
          simpa [overlaps, applyStatus, apptEnd] using hovl
        exact hnoc hsa b hb (statusConflictFilter_eq_true.mpr
          ⟨fun e => hab.1 (e ▸ by simp [applyStatus]), hbiz.symm, hwk.symm, hsb,
            hovl'.2, hovl'.1⟩)
      · intro a ha hpa b hb hab
        rw [hmatch a ha hpa]
        rw [hmatch a ha hpa] at hab
        refine ⟨by simpa [applyStatus] using hab.1, ?_⟩
        intro hbiz hwk hsb hsa hovl
        simp only [applyStatus] at hbiz hwk hsa
        have hovl' : b.start < apptEnd appt ∧ appt.start < apptEnd b := by
          simpa [overlaps, applyStatus, apptEnd] using hovl
        exact hnoc hsa b hb (statusConflictFilter_eq_true.mpr
          ⟨fun e => hab.1 (by simp [applyStatus, e]), hbiz, hwk, hsb,
            hovl'.1, hovl'.2⟩)
      · intro a ha
        rcases setFirst_mem ha with ha' | ⟨c, hc, _, rfl⟩
        · exact hid a ha'
        · simpa [applyStatus] using hid c hc
      · intro a ha
        rcases setFirst_mem ha with ha' | ⟨c, hc, _, rfl⟩
        · exact hdur a ha'
        · simpa [applyStatus] using hdur c hc

/-- The client cancel preserves the store invariant. -/
theorem inv_clientCancel {s : Store} (id client biz : Nat) (now : Int)
    (hs : Inv s) : Inv (clientCancel s id client biz now).2 := by
  unfold clientCancel
  split
  next => exact hs
  next appt hfind =>
    split
    next => exact hs
    next =>
      split
      next => exact hs
      next =>
        obtain ⟨hpw, hid, hdur⟩ := hs
        refine ⟨pairwise_setFirst hpw ?_ ?_, ?_, ?_⟩
        · intro a ha hpa b hb hab
          refine ⟨hab.1, ?_⟩
          intro _ _ hsa _ _
          exact absurd hsa (by simp)
        · intro a ha hpa b hb hab
          refine ⟨hab.1, ?_⟩
          intro _ _ _ hsa _
          exact absurd hsa (by simp)
        · intro a ha
          rcases setFirst_mem ha with ha' | ⟨c, hc, _, rfl⟩
          · exact hid a ha'
          · simpa using hid c hc
        · intro a ha
          rcases setFirst_mem ha with ha' | ⟨c, hc, _, rfl⟩
          · exact hdur a ha'
          · simpa using hdur c hc

/-- Every reachable store satisfies the invariant. -/
theorem reachable_inv {s : Store} (h : Reachable s) : Inv s := by
  induction h with
  | init users blocks => exact ⟨List.Pairwise.nil, by simp, by simp⟩
  | create now r _ ih => exact inv_applyCreate now r ih
  | status id biz p _ ih => exact inv_adminSetStatus id biz p ih
  | cancel id client biz now _ ih => exact inv_clientCancel id client biz now ih
  | env users blocks _ ih => exact ih

/-- The overlap query finds a document exactly when a confirmed
appointment of the same business and worker overlaps the requested
half-open interval. -/
theorem any_overlapFilter_iff {s : Store} {r : BookingReq} :
    s.appointments.any (overlapFilter r.business r.worker r.start
      (r.start + minutesToMs r.service.duration)) = true ↔
    ∃ a ∈ s.appointments, a.business = r.business ∧ a.worker = r.worker ∧
      a.status = Status.confirmed ∧
      a.start < r.start + minutesToMs r.service.duration ∧ r.start < apptEnd a := by
  simp only [List.any_eq_true, overlapFilter_eq_true]

/-- Sequentially, a duplicate-key hit is also an overlap: an existing
confirmed appointment with the same start overlaps the request, because
both durations are at least a minute. -/
theorem dup_implies_overlap {s : Store} {now : Int} {r : BookingReq}
    (hv : validateAppointment now r = true)
    (hdur : ∀ a ∈ s.appointments, a.status = Status.confirmed →
      1 ≤ a.service.duration)
    (hdup : s.appointments.any (dupKey r.business r.worker r.start) = true) :
    ∃ a ∈ s.appointments, a.business = r.business ∧ a.worker = r.worker ∧
      a.status = Status.confirmed ∧
      a.start < r.start + minutesToMs r.service.duration ∧ r.start < apptEnd a := by
  rcases List.any_eq_true.mp hdup with ⟨a, ha, hd⟩
  rcases dupKey_eq_true.mp hd with ⟨h1, h2, h3, h4⟩
  refine ⟨a, ha, h1, h2, h4, ?_, ?_⟩
  · have hd1 : (1 : Int) ≤ (r.service.duration : Int) := by
      exact_mod_cast validate_one_le_duration hv
    simp only [minutesToMs]
    omega
  · exact h3 ▸ apptEnd_gt_start (hdur a ha h4)

/-- When the gates pass and no confirmed appointment of the pair overlaps
the request, the booking commits the new confirmed document. -/
theorem create_ok_of_no_overlap {s : Store} {now : Int} {r : BookingReq}
    (hv : validateAppointment now r = true)
    (hc : userInBusiness s r.client r.business = true)
    (hw : userInBusiness s r.worker r.business = true)
    (hdur : ∀ a ∈ s.appointments, a.status = Status.confirmed →
      1 ≤ a.service.duration)
    (hno : ¬ ∃ a ∈ s.appointments, a.business = r.business ∧
      a.worker = r.worker ∧ a.status = Status.confirmed ∧
      a.start < r.start + minutesToMs r.service.duration ∧ r.start < apptEnd a) :
    createAppointment s s now r =
      (CreateResult.created (newDoc s now r),
        { s with appointments := newDoc s now r :: s.appointments
                 nextId := s.nextId + 1 }) := by
  have hov : ¬ s.appointments.any (overlapFilter r.business r.worker r.start
      (r.start + minutesToMs r.service.duration)) = true :=
    fun h => hno (any_overlapFilter_iff.mp h)
  have hdup : ¬ s.appointments.any (dupKey r.business r.worker r.start) = true :=
    fun h => hno (dup_implies_overlap hv hdur h)
  rw [createAppointment_gates hv hc hw, if_neg hov, if_neg hdup]

/-- Concrete example data used to instantiate the proved theorems. -/
def exUsers : List User :=
  [{ id := 5, business := 1 }, { id := 2, business := 1 }, { id := 3, business := 1 }]

/-- Concrete example service: 30 minutes. -/
def exService : Service := { name := "cut", duration := 30, price := 100 }

/-- Concrete example store with no appointments. -/
def exStore0 : Store :=
  { users := exUsers, appointments := [], blocks := [], nextId := 0 }

/-- Concrete example booking request. -/
def exReq1 : BookingReq :=
  { business := 1, client := 5, worker := 2, service := exService,
    start := 100000000, notes := none }

/-- Concrete example booking request at a later slot of the same worker. -/
def exReq2 : BookingReq :=
  { business := 1, client := 5, worker := 2, service := exService,
    start := 200000000, notes := none }

/-- Store after booking `exReq1`. -/
def exStore1 : Store := applyCreate exStore0 0 exReq1

/-- Store after booking `exReq1` then `exReq2`. -/
def exStore2 : Store := applyCreate exStore1 0 exReq2

/-- The document committed by the first example booking. -/
def exDoc1 : Appointment := newDoc exStore0 0 exReq1

/-- The document committed by the second example booking. -/
def exDoc2 : Appointment := newDoc exStore1 0 exReq2

/-- C1: for every (business, worker) pair, after any sequence of
booking-transaction creates and admin status-change operations (client
cancels allowed as well), the `[start, start + duration)` intervals of
all appointments with status confirmed for that pair are pairwise
non-overlapping. -/
theorem confirmed_appointments_pairwise_disjoint {s : Store}
    (h : Reachable s) :
    s.appointments.Pairwise (fun a b =>
      a.business = b.business → a.worker = b.worker →
      a.status = Status.confirmed → b.status = Status.confirmed →
      ¬ overlaps a b) :=
  ((reachable_inv h).1).imp fun hr => hr.2

/-- Witness for C1 at a concrete reachable store with two bookings. -/
theorem confirmed_appointments_pairwise_disjoint_witness :
    exStore2.appointments.Pairwise (fun a b =>
      a.business = b.business → a.worker = b.worker →
      a.status = Status.confirmed → b.status = Status.confirmed →
      ¬ overlaps a b) :=
  confirmed_appointments_pairwise_disjoint
    (Reachable.create 0 exReq2 (Reachable.create 0 exReq1 (Reachable.init exUsers [])))

/-- C9: the store's unique partial index over (business, worker, start)
scoped to confirmed documents holds at every reachable store — no two
distinct confirmed appointments of the same business and worker share a
start instant — and a create that passed its checks on a stale snapshot
but hits the constraint on the current store (the lost race) surfaces
SLOT_TAKEN, not a generic error. -/
theorem unique_confirmed_start_and_race_maps_to_slotTaken :
    (∀ s : Store, Reachable s → ∀ a ∈ s.appointments, ∀ b ∈ s.appointments,
        a.id ≠ b.id → a.business = b.business → a.worker = b.worker →
        a.status = Status.confirmed → b.status = Status.confirmed →
        a.start ≠ b.start) ∧
    (∀ snap cur : Store, ∀ now : Int, ∀ r : BookingReq,
        validateAppointment now r = true →
        userInBusiness snap r.client r.business = true →
        userInBusiness snap r.worker r.business = true →
        snap.appointments.any (overlapFilter r.business r.worker r.start
          (r.start + minutesToMs r.service.duration)) = false →
        cur.appointments.any (dupKey r.business r.worker r.start) = true →
        (createAppointment snap cur now r).1 = CreateResult.slotTaken) := by
  constructor
  · intro s hs a ha b hb hida hbiz hwk hsa hsb hstart
    obtain ⟨hpw, _, hdur⟩ := reachable_inv hs
    have hsymm : Symmetric Rel := fun _ _ h => rel_symm h
    have hrel : Rel a b :=
      hpw.forall hsymm ha hb (fun e => hida (congrArg Appointment.id e))
    apply hrel.2 hbiz hwk hsa hsb
    exact ⟨hstart ▸ apptEnd_gt_start (hdur b hb),
      hstart ▸ apptEnd_gt_start (hdur a ha)⟩
  · intro snap cur now r hv hc hw hov hdup
    rw [createAppointment_gates hv hc hw, if_neg (by simp [hov]), if_pos hdup]

/-- Witness for C9: the two concrete bookings have distinct starts, and
a create checked against the pre-booking snapshot but inserting into the
post-booking store (same start as the committed document) returns
SLOT_TAKEN. -/
theorem unique_confirmed_start_and_race_maps_to_slotTaken_witness :
    exDoc2.start ≠ exDoc1.start ∧
    (createAppointment exStore0 exStore1 0 exReq1).1 = CreateResult.slotTaken :=
  ⟨unique_confirmed_start_and_race_maps_to_slotTaken.1 exStore2
      (Reachable.create 0 exReq2 (Reachable.create 0 exReq1 (Reachable.init exUsers [])))
      exDoc2 (by decide) exDoc1 (by decide) (by decide) (by decide) (by decide)
      (by decide) (by decide),
    unique_confirmed_start_and_race_maps_to_slotTaken.2 exStore0 exStore1 0 exReq1
      (by decide) (by decide) (by decide) (by decide) (by decide)⟩

/-- C2: with the validation and membership gates passed (and stored
confirmed durations at least a minute, as every reachable store
guarantees), the sequential booking transaction returns SLOT_TAKEN
exactly when some existing confirmed appointment of the same business and
worker overlaps the requested half-open interval; when no such overlap
exists — in particular when the request exactly abuts an existing
appointment — the booking is accepted. -/
theorem slotTaken_iff_confirmed_overlap (s : Store) (now : Int) (r : BookingReq)
    (hv : validateAppointment now r = true)
    (hc : userInBusiness s r.client r.business = true)
    (hw : userInBusiness s r.worker r.business = true)
    (hdur : ∀ a ∈ s.appointments, a.status = Status.confirmed →
      1 ≤ a.service.duration) :
    ((createAppointment s s now r).1 = CreateResult.slotTaken ↔
      ∃ a ∈ s.appointments, a.business = r.business ∧ a.worker = r.worker ∧
        a.status = Status.confirmed ∧
        a.start < r.start + minutesToMs r.service.duration ∧ r.start < apptEnd a) ∧
    ((¬ ∃ a ∈ s.appointments, a.business = r.business ∧ a.worker = r.worker ∧
        a.status = Status.confirmed ∧
        a.start < r.start + minutesToMs r.service.duration ∧ r.start < apptEnd a) →
      (createAppointment s s now r).1 = CreateResult.created (newDoc s now r)) := by
  constructor
  · constructor
    · intro htaken
      by_contra hno
      rw [create_ok_of_no_overlap hv hc hw hdur hno] at htaken
      exact CreateResult.noConfusion htaken
    · intro hex
      rw [createAppointment_gates hv hc hw, if_pos (any_overlapFilter_iff.mpr hex)]
  · intro hno
    rw [create_ok_of_no_overlap hv hc hw hdur hno]

/-- Witness for C2 at a concrete store: a request abutting the existing
booking (start = its end) is not a conflict and is accepted. -/
theorem slotTaken_iff_confirmed_overlap_witness :
    ((createAppointment exStore1 exStore1 0
        { business := 1, client := 5, worker := 2, service := exService,
          start := 101800000, notes := none }).1 = CreateResult.slotTaken ↔
      ∃ a ∈ exStore1.appointments, a.business = 1 ∧ a.worker = 2 ∧
        a.status = Status.confirmed ∧
        a.start < 101800000 + minutesToMs 30 ∧ (101800000 : Int) < apptEnd a) ∧
    ((¬ ∃ a ∈ exStore1.appointments, a.business = 1 ∧ a.worker = 2 ∧
        a.status = Status.confirmed ∧
        a.start < 101800000 + minutesToMs 30 ∧ (101800000 : Int) < apptEnd a) →
      (createAppointment exStore1 exStore1 0
        { business := 1, client := 5, worker := 2, service := exService,
          start := 101800000, notes := none }).1 =
        CreateResult.created (newDoc exStore1 0
          { business := 1, client := 5, worker := 2, service := exService,
            start := 101800000, notes := none })) :=
  slotTaken_iff_confirmed_overlap exStore1 0
    { business := 1, client := 5, worker := 2, service := exService,
      start := 101800000, notes := none }
    (by decide) (by decide) (by decide) (by decide)

/-- Concrete store in which client 5 already holds three confirmed
appointments of business 1. -/
def c3Store : Store :=
  { users := exUsers
    appointments :=
      [{ id := 0, business := 1, client := 5, worker := 2, service := exService,
         start := 100000000, notes := "", status := Status.confirmed, createdAt := 0 },
       { id := 1, business := 1, client := 5, worker := 2, service := exService,
         start := 200000000, notes := "", status := Status.confirmed, createdAt := 0 },
       { id := 2, business := 1, client := 5, worker := 2, service := exService,
         start := 300000000, notes := "", status := Status.confirmed, createdAt := 0 }]
    blocks := []
    nextId := 3 }

/-- Concrete fourth booking request by the same client. -/
def c3Req : BookingReq :=
  { business := 1, client := 5, worker := 3, service := exService,
    start := 400000000, notes := none }

/-- Counterexample to C3: client 5 has three confirmed appointments for
business 1, yet the fourth booking is accepted and persisted — the code
has no per-client confirmed-appointment cap and never returns
MAX_CONFIRMED_REACHED. -/
theorem max_confirmed_cap_counterexample :
    (c3Store.appointments.filter fun a =>
        a.client == 5 && a.business == 1 && a.status == Status.confirmed).length = 3 ∧
    (createAppointment c3Store c3Store 0 c3Req).1 =
      CreateResult.created (newDoc c3Store 0 c3Req) ∧
    (createAppointment c3Store c3Store 0 c3Req).2.appointments.length = 4 := by
  decide

/-- C3 amended: the booking transaction enforces no per-client
confirmed-appointment cap — a create request from a client with three (or
more) confirmed appointments for the business is not rejected; it commits
whenever the validation, membership and overlap checks pass. -/
theorem create_ignores_confirmed_cap (s : Store) (now : Int) (r : BookingReq)
    (hv : validateAppointment now r = true)
    (hc : userInBusiness s r.client r.business = true)
    (hw : userInBusiness s r.worker r.business = true)
    (hdur : ∀ a ∈ s.appointments, a.status = Status.confirmed →
      1 ≤ a.service.duration)
    (hcount : 3 ≤ (s.appointments.filter fun a =>
        a.client == r.client && a.business == r.business &&
          a.status == Status.confirmed).length)
    (hno : ¬ ∃ a ∈ s.appointments, a.business = r.business ∧
      a.worker = r.worker ∧ a.status = Status.confirmed ∧
      a.start < r.start + minutesToMs r.service.duration ∧ r.start < apptEnd a) :
    (createAppointment s s now r).1 = CreateResult.created (newDoc s now r) ∧
    (createAppointment s s now r).2.appointments =
      newDoc s now r :: s.appointments := by
  rw [create_ok_of_no_overlap hv hc hw hdur hno]
  exact ⟨rfl, rfl⟩

/-- Witness for the amended C3 at the concrete three-appointment store. -/
theorem create_ignores_confirmed_cap_witness :
    (createAppointment c3Store c3Store 0 c3Req).1 =
      CreateResult.created (newDoc c3Store 0 c3Req) ∧
    (createAppointment c3Store c3Store 0 c3Req).2.appointments =
      newDoc c3Store 0 c3Req :: c3Store.appointments :=
  create_ignores_confirmed_cap c3Store 0 c3Req (by decide) (by decide)
    (by decide) (by decide) (by decide) (by decide)

/-- Concrete active business-wide block covering the example request. -/
def c4Block : Block :=
  { id := 0, business := 1, resource := none, start := 0, stop := 1000000000,
    timezone := "Asia/Jerusalem", reason := BlockReason.vacation, notes := "",
    createdBy := none, active := true }

/-- Concrete store holding only the business-wide block. -/
def c4Store : Store :=
  { users := exUsers, appointments := [], blocks := [c4Block], nextId := 0 }

/-- Counterexample to C4: the requested interval lies inside an active
business-wide block of the same business, yet the booking is accepted —
the booking transaction never consults blocks. -/
theorem block_overlap_not_rejected_counterexample :
    c4Block.active = true ∧ c4Block.resource = none ∧ c4Block.business = 1 ∧
    c4Block.start < exReq1.start + minutesToMs exReq1.service.duration ∧
    exReq1.start < c4Block.stop ∧ c4Block ∈ c4Store.blocks ∧
    (createAppointment c4Store c4Store 0 exReq1).1 =
      CreateResult.created (newDoc c4Store 0 exReq1) := by
  decide

/-- C4 amended: a booking create request whose interval overlaps an
active block of the same business — business-wide or worker-specific —
is not rejected on account of the block: the booking transaction does not
consult blocks and accepts whenever the validation, membership and
confirmed-appointment-overlap checks pass. -/
theorem create_ignores_blocks (s : Store) (now : Int) (r : BookingReq)
    (B : Block)
    (hv : validateAppointment now r = true)
    (hc : userInBusiness s r.client r.business = true)
    (hw : userInBusiness s r.worker r.business = true)
    (hdur : ∀ a ∈ s.appointments, a.status = Status.confirmed →
      1 ≤ a.service.duration)
    (hB : B ∈ s.blocks) (hact : B.active = true) (hbiz : B.business = r.business)
    (hcov1 : B.start < r.start + minutesToMs r.service.duration)
    (hcov2 : r.start < B.stop)
    (hno : ¬ ∃ a ∈ s.appointments, a.business = r.business ∧
      a.worker = r.worker ∧ a.status = Status.confirmed ∧
      a.start < r.start + minutesToMs r.service.duration ∧ r.start < apptEnd a) :
    (createAppointment s s now r).1 = CreateResult.created (newDoc s now r) := by
  rw [create_ok_of_no_overlap hv hc hw hdur hno]

/-- Witness for the amended C4 at the concrete blocked store. -/
theorem create_ignores_blocks_witness :
    (createAppointment c4Store c4Store 0 exReq1).1 =
      CreateResult.created (newDoc c4Store 0 exReq1) :=
  create_ignores_blocks c4Store 0 exReq1 c4Block (by decide) (by decide)
    (by decide) (by decide) (by decide) (by decide) (by decide) (by decide)
    (by decide) (by decide)

/-- After `setFirst`, a filter that also matches the rewritten element
finds the rewritten element. -/
theorem find?_setFirst {p : Appointment → Bool} {f : Appointment → Appointment}
    {l : List Appointment} {a : Appointment}
    (h : l.find? p = some a) (hfa : p (f a) = true) :
    (setFirst p f l).find? p = some (f a) := by
  induction l with
  | nil => simp at h
  | cons x rest ih =>
    by_cases hpx : p x = true
    · rw [List.find?_cons_of_pos _ hpx] at h
      cases h
      rw [setFirst, if_pos hpx]
      exact List.find?_cons_of_pos _ hfa
    · rw [List.find?_cons_of_neg _ hpx] at h
      rw [setFirst, if_neg hpx, List.find?_cons_of_neg _ hpx]
      exact ih h

/-- Concrete appointment whose start is exactly 24 hours after epoch. -/
def c6Appt : Appointment :=
  { id := 0, business := 1, client := 5, worker := 2, service := exService,
    start := 86400000, notes := "", status := Status.confirmed, createdAt := 0 }

/-- Concrete store holding only that appointment. -/
def c6Store : Store :=
  { users := exUsers, appointments := [c6Appt], blocks := [], nextId := 1 }

/-- Counterexample to C6: at `now = 0` the client is exactly at the
24-hour cutoff before the start (not strictly more than 24 hours), yet
the cancel succeeds — the code rejects only strictly inside the window
(`diffMs < HOURS_24_MS`). -/
theorem cancel_at_exact_cutoff_succeeds :
    c6Appt.start - 0 = HOURS_24_MS ∧
    (clientCancel c6Store 0 5 1 0).1 = UpdateResult.ok := by
  decide

/-- C6 amended: the client self-cancel succeeds exactly when the current
status is confirmed and now is at least 24 hours before the start
(`start - now ≥ 24h`, so the exact cutoff instant still succeeds); a
non-confirmed appointment fails with ONLY_CONFIRMED_CAN_BE_CANCELED, a
call strictly within 24 hours fails with CANNOT_CANCEL_WITHIN_24H, and on
success the status becomes canceled. -/
theorem clientCancel_spec (s : Store) (id client biz : Nat) (now : Int)
    (appt : Appointment)
    (hfind : s.appointments.find?
      (fun a => a.id == id && a.client == client && a.business == biz) = some appt) :
    (appt.status ≠ Status.confirmed →
      clientCancel s id client biz now = (UpdateResult.onlyConfirmedCanBeCanceled, s)) ∧
    (appt.status = Status.confirmed → appt.start - now < HOURS_24_MS →
      clientCancel s id client biz now = (UpdateResult.cannotCancelWithin24h, s)) ∧
    (appt.status = Status.confirmed → HOURS_24_MS ≤ appt.start - now →
      (clientCancel s id client biz now).1 = UpdateResult.ok ∧
      ((clientCancel s id client biz now).2.appointments.find?
          (fun a => a.id == id && a.client == client && a.business == biz)) =
        some { appt with status := Status.canceled }) := by
  refine ⟨?_, ?_, ?_⟩
  · intro hns
    unfold clientCancel
    rw [hfind]
    simp only
    rw [if_pos (by simp [hns])]
  · intro hs ht
    unfold clientCancel
    rw [hfind]
    simp only
    rw [if_neg (by simp [hs]), if_pos (by simpa using ht)]
  · intro hs ht
    unfold clientCancel
    rw [hfind]
    simp only
    rw [if_neg (by simp [hs]), if_neg (by simpa using not_lt.mpr ht)]
    refine ⟨rfl, ?_⟩
    have hpa := List.find?_some hfind
    exact find?_setFirst hfind (by simpa using hpa)

/-- Witness for the amended C6: the cancel at exactly the cutoff instant
succeeds and the stored appointment becomes canceled. -/
theorem clientCancel_spec_witness :
    (clientCancel c6Store 0 5 1 0).1 = UpdateResult.ok ∧
    ((clientCancel c6Store 0 5 1 0).2.appointments.find?
        (fun a => a.id == 0 && a.client == 5 && a.business == 1)) =
      some { c6Appt with status := Status.canceled } :=
  (clientCancel_spec c6Store 0 5 1 0 c6Appt (by decide)).2.2 (by decide) (by decide)

/-- Concrete canceled appointment to re-confirm. -/
def c7Appt : Appointment :=
  { id := 0, business := 1, client := 5, worker := 2, service := exService,
    start := 100000000, notes := "", status := Status.canceled, createdAt := 0 }

/-- Concrete store holding only that canceled appointment. -/
def c7Store : Store :=
  { users := exUsers, appointments := [c7Appt], blocks := [], nextId := 1 }

/-- C7: an admin status change to confirmed on a non-confirmed
appointment re-runs the half-open overlap check against the other
confirmed appointments of the same business and worker (excluding the
record itself): on a conflict it fails with SLOT_TAKEN leaving the store
unchanged, otherwise it succeeds and the stored record reverts to
confirmed; a change to any other target status is unconditional. -/
theorem reconfirm_checks_overlap (s : Store) (id biz : Nat) (p : StatusPayload)
    (appt : Appointment)
    (hfind : s.appointments.find? (fun a => a.id == id && a.business == biz) =
      some appt)
    (hcur : appt.status ≠ Status.confirmed) :
    (p.status = Status.confirmed →
      ((∃ b ∈ s.appointments, b.id ≠ appt.id ∧ b.business = appt.business ∧
          b.worker = appt.worker ∧ b.status = Status.confirmed ∧
          b.start < apptEnd appt ∧ appt.start < apptEnd b) →
        adminSetStatus s id biz p = (UpdateResult.slotTaken, s)) ∧
      ((¬ ∃ b ∈ s.appointments, b.id ≠ appt.id ∧ b.business = appt.business ∧
          b.worker = appt.worker ∧ b.status = Status.confirmed ∧
          b.start < apptEnd appt ∧ appt.start < apptEnd b) →
        (adminSetStatus s id biz p).1 = UpdateResult.ok ∧
        ((adminSetStatus s id biz p).2.appointments.find?
            (fun a => a.id == id && a.business == biz)) =
          some (applyStatus p appt) ∧
        (applyStatus p appt).status = Status.confirmed)) ∧
    (p.status ≠ Status.confirmed →
      (adminSetStatus s id biz p).1 = UpdateResult.ok) := by
  have hiff : s.appointments.any (statusConflictFilter appt) = true ↔
      ∃ b ∈ s.appointments, b.id ≠ appt.id ∧ b.business = appt.business ∧
        b.worker = appt.worker ∧ b.status = Status.confirmed ∧
        b.start < apptEnd appt ∧ appt.start < apptEnd b := by
    simp only [List.any_eq_true, statusConflictFilter_eq_true]
  refine ⟨fun hp => ⟨?_, ?_⟩, ?_⟩
  · intro hex
    unfold adminSetStatus
    rw [hfind]
    simp only
    rw [if_pos (by simp [hp, hiff.mpr hex])]
  · intro hno
    have hany : ¬ s.appointments.any (statusConflictFilter appt) = true :=
      fun h => hno (hiff.mp h)
    unfold adminSetStatus
    rw [hfind]
    simp only
    rw [if_neg (by simp [hany])]
    refine ⟨rfl, ?_, by simp [applyStatus, hp]⟩
    have hpa := List.find?_some hfind
    exact find?_setFirst hfind (by simpa [applyStatus] using hpa)
  · intro hp
    unfold adminSetStatus
    rw [hfind]
    simp only
    rw [if_neg (by simp [hp])]

/-- Witness for C7: re-confirming the canceled concrete appointment with
no conflicting booking succeeds and the record reverts to confirmed. -/
theorem reconfirm_checks_overlap_witness :
    (adminSetStatus c7Store 0 1 { status := Status.confirmed, notes := none }).1 =
      UpdateResult.ok ∧
    ((adminSetStatus c7Store 0 1
        { status := Status.confirmed, notes := none }).2.appointments.find?
        (fun a => a.id == 0 && a.business == 1)) =
      some (applyStatus { status := Status.confirmed, notes := none } c7Appt) ∧
    (applyStatus { status := Status.confirmed, notes := none } c7Appt).status =
      Status.confirmed :=
  ((reconfirm_checks_overlap c7Store 0 1
      { status := Status.confirmed, notes := none } c7Appt (by decide)
      (by decide)).1 rfl).2 (by decide)

/-- C10: the admin status change touches only the status field, and the
notes field only when a non-empty notes value is supplied; business,
client, worker, service snapshot, start instant and creation timestamp of
every stored appointment are unchanged. -/
theorem admin_status_change_frame (s : Store) (id biz : Nat)
    (p : StatusPayload) :
    ∀ x ∈ (adminSetStatus s id biz p).2.appointments, ∃ a ∈ s.appointments,
      x.id = a.id ∧ x.business = a.business ∧ x.client = a.client ∧
      x.worker = a.worker ∧ x.service = a.service ∧ x.start = a.start ∧
      x.createdAt = a.createdAt ∧ (x.status = a.status ∨ x.status = p.status) ∧
      ((p.notes = none ∨ p.notes = some "") → x.notes = a.notes) ∧
      (∀ n, p.notes = some n → n ≠ "" → (x.notes = a.notes ∨ x.notes = n)) := by
  have base : ∀ x ∈ s.appointments, ∃ a ∈ s.appointments,
      x.id = a.id ∧ x.business = a.business ∧ x.client = a.client ∧
      x.worker = a.worker ∧ x.service = a.service ∧ x.start = a.start ∧
      x.createdAt = a.createdAt ∧ (x.status = a.status ∨ x.status = p.status) ∧
      ((p.notes = none ∨ p.notes = some "") → x.notes = a.notes) ∧
      (∀ n, p.notes = some n → n ≠ "" → (x.notes = a.notes ∨ x.notes = n)) :=
    fun x hx => ⟨x, hx, rfl, rfl, rfl, rfl, rfl, rfl, rfl, Or.inl rfl,
      fun _ => rfl, fun _ _ _ => Or.inl rfl⟩
  unfold adminSetStatus
  cases hfind : s.appointments.find? (fun a => a.id == id && a.business == biz) with
  | none => exact base
  | some appt =>
    simp only
    split
    · exact base
    · intro x hx
      rcases setFirst_mem hx with hx' | ⟨c, hc, _, rfl⟩
      · exact base x hx'
      · refine ⟨c, hc, rfl, rfl, rfl, rfl, rfl, rfl, rfl, Or.inr rfl, ?_, ?_⟩
        · rintro (hn | hn) <;> simp [applyStatus, hn]
        · intro n hn hne
          right
          simp [applyStatus, hn, hne]

/-- Witness for C10 at the concrete store: completing the appointment
with non-empty notes rewrites exactly status and notes. -/
theorem admin_status_change_frame_witness :
    ∃ a ∈ c7Store.appointments,
      (applyStatus { status := Status.completed, notes := some "done" } c7Appt).id = a.id ∧
      (applyStatus { status := Status.completed, notes := some "done" } c7Appt).business = a.business ∧
      (applyStatus { status := Status.completed, notes := some "done" } c7Appt).client = a.client ∧
      (applyStatus { status := Status.completed, notes := some "done" } c7Appt).worker = a.worker ∧
      (applyStatus { status := Status.completed, notes := some "done" } c7Appt).service = a.service ∧
      (applyStatus { status := Status.completed, notes := some "done" } c7Appt).start = a.start ∧
      (applyStatus { status := Status.completed, notes := some "done" } c7Appt).createdAt = a.createdAt ∧
      ((applyStatus { status := Status.completed, notes := some "done" } c7Appt).status = a.status ∨
        (applyStatus { status := Status.completed, notes := some "done" } c7Appt).status =
          (StatusPayload.mk Status.completed (some "done")).status) ∧
      (((StatusPayload.mk Status.completed (some "done")).notes = none ∨
          (StatusPayload.mk Status.completed (some "done")).notes = some "") →
        (applyStatus { status := Status.completed, notes := some "done" } c7Appt).notes = a.notes) ∧
      (∀ n, (StatusPayload.mk Status.completed (some "done")).notes = some n → n ≠ "" →
        ((applyStatus { status := Status.completed, notes := some "done" } c7Appt).notes = a.notes ∨
          (applyStatus { status := Status.completed, notes := some "done" } c7Appt).notes = n)) :=
  admin_status_change_frame c7Store 0 1
    { status := Status.completed, notes := some "done" }
    (applyStatus { status := Status.completed, notes := some "done" } c7Appt)
    (by decide)

/-- Concrete appointment starting 30 minutes before the queried day and
spilling 30 minutes into it (duration 60). -/
def c5Appt : Appointment :=
  { id := 0, business := 1, client := 5, worker := 2,
    service := { name := "long", duration := 60, price := 100 },
    start := -1800000, notes := "", status := Status.confirmed, createdAt := 0 }

/-- Concrete block with the same spillover interval. -/
def c5Block : Block :=
  { id := 0, business := 1, resource := none, start := -1800000, stop := 1800000,
    timezone := "Asia/Jerusalem", reason := BlockReason.other, notes := "",
    createdBy := none, active := true }

/-- Concrete store holding the spillover appointment and block. -/
def c5Store : Store :=
  { users := exUsers, appointments := [c5Appt], blocks := [c5Block], nextId := 1 }

/-- C5 failing input: the appointment's occupied interval intersects the
queried day `[0, one day)` (it spills 30 minutes into it), and the blocks
by-day query does return the analogous block, yet the appointments by-day
query returns nothing — it filters by start instant alone. -/
theorem apptsByDay_misses_spillover :
    (c5Appt.start < 0 + 86400000 ∧ 0 < apptEnd c5Appt) ∧
    blocksByDay c5Store 1 (some 2) 0 = [c5Block] ∧
    apptsByDay c5Store 1 2 0 = [] := by
  decide

/-- Modelled from the spec: the find-nearest-slots operation of §4.2 is
listed among the exposed operations but its handler is not present under
`src/`; the search parameters (work-day start and end hours, scan
granularity in minutes, lookahead horizon in days, target count K = 5)
are therefore taken as configuration, as the spec prescribes. -/
structure SlotConfig where
  workStartHour : Nat
  workEndHour : Nat
  granularity : Nat
  horizonDays : Nat
  targetCount : Nat
deriving DecidableEq, Repr

/-- Modelled from the spec: a candidate start (in minutes on an absolute
timeline) is free when it overlaps none of the pre-fetched confirmed
appointments, each given as (start, duration in minutes), under the
half-open rule of §4.1. -/
def slotFree (appts : List (Nat × Nat)) (c dur : Nat) : Bool :=
  appts.all fun ad => !(decide (c < ad.1 + ad.2) && decide (ad.1 < c + dur))

/-- Modelled from the spec: the free candidates of one day — step from
the effective window start `s0` by the granularity, reject candidates
whose end would exceed the day's work end `we`, keep the free ones. -/
def daySlots (s0 we gran dur : Nat) (appts : List (Nat × Nat)) : List Nat :=
  if s0 + dur ≤ we then
    ((List.range ((we - dur - s0) / gran + 1)).map fun i => s0 + i * gran).filter
      fun c => slotFree appts c dur
  else []

/-- Modelled from the spec: the first scanned day — today, or tomorrow
when now is at or past today's work end. -/
def firstDay (cfg : SlotConfig) (now : Nat) : Nat :=
  if now / 1440 * 1440 + cfg.workEndHour * 60 ≤ now then now / 1440 + 1
  else now / 1440

/-- Modelled from the spec: the effective window start of day `d` — the
day's work start, pushed to the cursor (`now`) on the current day. -/
def dayWindowStart (cfg : SlotConfig) (now d : Nat) : Nat :=
  if d = now / 1440 then max (d * 1440 + cfg.workStartHour * 60) now
  else d * 1440 + cfg.workStartHour * 60

/-- Modelled from the spec: all free candidates across the lookahead
horizon, in scan order. -/
def slotScan (cfg : SlotConfig) (now dur : Nat)
    (appts : List (Nat × Nat)) : List Nat :=
  ((List.range cfg.horizonDays).map fun i => firstDay cfg now + i).flatMap fun d =>
    daySlots (dayWindowStart cfg now d) (d * 1440 + cfg.workEndHour * 60)
      cfg.granularity dur appts

/-- Modelled from the spec: find-nearest-slots (§4.2).  The timeline is
minutes since an epoch midnight; day `d` spans `[d*1440, (d+1)*1440)`.
The scan collects free candidates day by day and the first `targetCount`
found are returned; fewer (or none) is not an error. -/
def findNearestSlots (cfg : SlotConfig) (now dur : Nat)
    (appts : List (Nat × Nat)) : List Nat :=
  (slotScan cfg now dur appts).take cfg.targetCount

/-- The candidates of a single day are strictly increasing. -/
theorem daySlots_pairwise {s0 we gran dur : Nat} {appts : List (Nat × Nat)}
    (hg : 0 < gran) : (daySlots s0 we gran dur appts).Pairwise (· < ·) := by
  unfold daySlots
  split
  · apply List.Pairwise.filter
    refine List.pairwise_map.mpr ?_
    refine (List.pairwise_lt_range _).imp ?_
    intro i j hij
    exact Nat.add_lt_add_left ((Nat.mul_lt_mul_right hg).mpr hij) s0
  · exact List.Pairwise.nil

/-- Bounds carried by every candidate of a single day. -/
theorem daySlots_mem {s0 we gran dur : Nat} {appts : List (Nat × Nat)}
    {c : Nat} (h : c ∈ daySlots s0 we gran dur appts) :
    s0 ≤ c ∧ c + dur ≤ we ∧ slotFree appts c dur = true := by
  unfold daySlots at h
  split at h
  next hfit =>
    rcases List.mem_filter.1 h with ⟨hmem, hfree⟩
    rcases List.mem_map.1 hmem with ⟨i, hi, rfl⟩
    have hiN : i ≤ (we - dur - s0) / gran := Nat.lt_succ_iff.mp (List.mem_range.1 hi)
    have h1 : i * gran ≤ (we - dur - s0) / gran * gran :=
      Nat.mul_le_mul_right _ hiN
    have h2 : (we - dur - s0) / gran * gran ≤ we - dur - s0 :=
      Nat.div_mul_le_self _ _
    have h3 : i * gran ≤ we - dur - s0 := h1.trans h2
    exact ⟨Nat.le_add_right _ _, by omega, hfree⟩
  next => exact absurd h (List.not_mem_nil c)

/-- C8: the find-nearest-slots operation returns at most K candidates
(K = targetCount), strictly increasing in time, each lying fully inside
the business hours of some day, and none overlapping any of the worker's
confirmed appointments under the half-open rule; fewer than K results is
not an error (the function is total and returns a plain list). -/
theorem findNearestSlots_spec (cfg : SlotConfig) (now dur : Nat)
    (appts : List (Nat × Nat)) (hg : 1 ≤ cfg.granularity) (hd : 1 ≤ dur)
    (he : cfg.workEndHour ≤ 24) :
    (findNearestSlots cfg now dur appts).length ≤ cfg.targetCount ∧
    (findNearestSlots cfg now dur appts).Pairwise (· < ·) ∧
    (∀ c ∈ findNearestSlots cfg now dur appts, ∃ d : Nat,
        d * 1440 + cfg.workStartHour * 60 ≤ c ∧
        c + dur ≤ d * 1440 + cfg.workEndHour * 60) ∧
    (∀ c ∈ findNearestSlots cfg now dur appts, ∀ ad ∈ appts,
        ¬ (c < ad.1 + ad.2 ∧ ad.1 < c + dur)) := by
  have hws : ∀ d, d * 1440 + cfg.workStartHour * 60 ≤ dayWindowStart cfg now d := by
    intro d
    unfold dayWindowStart
    split
    · exact Nat.le_max_left _ _
    · exact Nat.le_refl _
  have hscan : (slotScan cfg now dur appts).Pairwise (· < ·) := by
    unfold slotScan
    rw [List.pairwise_flatMap]
    constructor
    · intro d _
      exact daySlots_pairwise hg
    · refine List.pairwise_map.mpr ?_
      refine (List.pairwise_lt_range _).imp ?_
      intro i j hij x hx y hy
      rcases daySlots_mem hx with ⟨_, hxu, _⟩
      rcases daySlots_mem hy with ⟨hyl, _, _⟩
      have hyl' := (hws (firstDay cfg now + j)).trans hyl
      have hij' : firstDay cfg now + i + 1 ≤ firstDay cfg now + j := by omega
      have hcal : (firstDay cfg now + i) * 1440 + cfg.workEndHour * 60 ≤
          (firstDay cfg now + j) * 1440 + cfg.workStartHour * 60 := by
        have h60 : cfg.workEndHour * 60 ≤ 1440 := by omega
        have : (firstDay cfg now + i) * 1440 + 1440 ≤ (firstDay cfg now + j) * 1440 :=
          by calc (firstDay cfg now + i) * 1440 + 1440
                = (firstDay cfg now + i + 1) * 1440 := by ring
            _ ≤ (firstDay cfg now + j) * 1440 := Nat.mul_le_mul_right _ hij'
        omega
      omega
  have hmem : ∀ c ∈ slotScan cfg now dur appts, ∃ d : Nat,
      d * 1440 + cfg.workStartHour * 60 ≤ c ∧
      c + dur ≤ d * 1440 + cfg.workEndHour * 60 ∧
      slotFree appts c dur = true := by
    intro c hc
    unfold slotScan at hc
    rcases List.mem_flatMap.1 hc with ⟨d, _, hcd⟩
    rcases daySlots_mem hcd with ⟨hl, hu, hfree⟩
    exact ⟨d, (hws d).trans hl, hu, hfree⟩
  have htake : ∀ c ∈ findNearestSlots cfg now dur appts,
      c ∈ slotScan cfg now dur appts := fun c hc =>
    (List.take_sublist _ _).subset hc
  refine ⟨List.length_take_le _ _, hscan.sublist (List.take_sublist _ _), ?_, ?_⟩
  · intro c hc
    rcases hmem c (htake c hc) with ⟨d, h1, h2, _⟩
    exact ⟨d, h1, h2⟩
  · intro c hc ad had hov
    rcases hmem c (htake c hc) with ⟨_, _, _, hfree⟩
    have := List.all_eq_true.mp hfree ad had
    simp only [Bool.not_eq_true', Bool.and_eq_false_iff, decide_eq_false_iff_not] at this
    rcases this with h | h
    · exact h hov.1
    · exact h hov.2

/-- Witness for C8 at the spec's worked example: hours 08:00 to 20:00,
granularity 20, horizon 14 days, K = 5, a 09:00 appointment of 30
minutes, search from 08:00 for a 30-minute slot. -/
theorem findNearestSlots_spec_witness :
    (findNearestSlots ⟨8, 20, 20, 14, 5⟩ 480 30 [(540, 30)]).length ≤ 5 ∧
    (findNearestSlots ⟨8, 20, 20, 14, 5⟩ 480 30 [(540, 30)]).Pairwise (· < ·) ∧
    (∀ c ∈ findNearestSlots ⟨8, 20, 20, 14, 5⟩ 480 30 [(540, 30)], ∃ d : Nat,
        d * 1440 + 8 * 60 ≤ c ∧ c + 30 ≤ d * 1440 + 20 * 60) ∧
    (∀ c ∈ findNearestSlots ⟨8, 20, 20, 14, 5⟩ 480 30 [(540, 30)],
        ∀ ad ∈ [((540 : Nat), (30 : Nat))], ¬ (c < ad.1 + ad.2 ∧ ad.1 < c + 30)) :=
  findNearestSlots_spec ⟨8, 20, 20, 14, 5⟩ 480 30 [(540, 30)]
    (by decide) (by decide) (by decide)

end Torimal
